import Mathlib

/-!
Shallow embedding of the Renfe-bot trip-watch system: the JSON-backed
watch store, the legacy-record repair, the periodic sweep
(`_check_once_and_notify`), the registration flow (`show_trains` /
`choose_train`) from `telegram_bot.py`, and the availability-check
selection logic (`esta_lleno_en_hora`, `_min_diff`) from
`renfe_scrapper.py`.  Pure data transformations are translated directly;
external effects (Playwright page state, Telegram delivery, the wall
clock, the filesystem) are passed in as explicit parameters or oracle
functions.  Character-level string helpers model the exact Python
operations (`str.split(':')`, `int(...)`, `str.strip()`, `str.upper()`,
the `re` patterns) over the ASCII alphabet in which all the relevant
data (times, dates, states, ids) lives.
-/

/- ===================== Character/string helpers ===================== -/

/-- Decimal digit test: models the `\d` character class of the `re`
patterns and the digits accepted by `int(...)` (ASCII range). -/
def isDigitChar (c : Char) : Bool := decide (48 ≤ c.toNat ∧ c.toNat ≤ 57)

/-- Word-character test for the `\b` anchors of `re.search(r"\b(\d{2}:\d{2})\b", ...)`:
letters, digits or underscore (ASCII range of Python's `\w`). -/
def isWordCharB (c : Char) : Bool :=
  isDigitChar c || decide (65 ≤ c.toNat ∧ c.toNat ≤ 90) ||
  decide (97 ≤ c.toNat ∧ c.toNat ≤ 122) || decide (c = '_')

/-- Whitespace stripped by Python's `str.strip()` (ASCII range). -/
def isSpaceChar (c : Char) : Bool :=
  decide (c = ' ') || decide (c = '\t') || decide (c = '\n') || decide (c = '\r') ||
  decide (c.toNat = 11) || decide (c.toNat = 12)

/-- Numeric value of a decimal digit character. -/
def digitVal (c : Char) : Nat := c.toNat - 48

/-- ASCII upper-casing of one character, as done by `str.upper()` on the
state strings ("OK", "LLENO", ...). -/
def upChar (c : Char) : Char :=
  if 97 ≤ c.toNat ∧ c.toNat ≤ 122 then Char.ofNat (c.toNat - 32) else c

/-- Model of `str.strip()`. -/
def pyStrip (s : String) : String :=
  String.mk (((s.toList.dropWhile isSpaceChar).reverse.dropWhile isSpaceChar).reverse)

/-- Model of `str.upper()` (ASCII). -/
def pyUpper (s : String) : String := String.mk (s.toList.map upChar)

/-- Model of Python's `x or dflt` on an optional string: `None` and the
empty string are falsy and give the default. -/
def pyOrStr (o : Option String) (dflt : String) : String :=
  match o with
  | none => dflt
  | some s => if s = "" then dflt else s

/-- Model of `str.split(sep)` for a one-character separator: splits at
every occurrence, keeping empty pieces (`"".split(":") == [""]`). -/
def splitOnChar (sep : Char) : List Char → List (List Char)
  | [] => [[]]
  | c :: rest =>
    if c = sep then [] :: splitOnChar sep rest
    else
      match splitOnChar sep rest with
      | [] => [[c]]
      | h :: t => (c :: h) :: t

/-- Digit-string to number: the core of `int(...)` on an unsigned ASCII
decimal literal; `none` models the `ValueError` raised on anything else. -/
def natDigits (cs : List Char) : Option Nat :=
  if cs ≠ [] ∧ cs.all isDigitChar then
    some (cs.foldl (fun a c => a * 10 + digitVal c) 0)
  else none

/-- Model of `int(str)` on a character list: an optional sign followed by
decimal digits (whitespace already stripped by the caller). -/
def pyIntChars (cs : List Char) : Option Int :=
  match cs with
  | [] => none
  | c :: rest =>
    if c = '-' then (natDigits rest).map (fun n => -(n : Int))
    else if c = '+' then (natDigits rest).map (fun n => (n : Int))
    else (natDigits cs).map (fun n => (n : Int))

/-- Model of `int(s)` on a string (which strips surrounding whitespace). -/
def pyInt (s : String) : Option Int := pyIntChars (pyStrip s).toList

/- ===================== Time parsing (`_min_diff`) ===================== -/

/-- The `ha, ma = map(int, hhmm.split(":"))` step of `_min_diff`
(renfe_scrapper.py:112-119): succeeds only when the string splits on `:`
into exactly two pieces both accepted by `int`. -/
def parseHHMM (s : String) : Option (Int × Int) :=
  match splitOnChar ':' s.toList with
  | [x, y] =>
    match pyIntChars x, pyIntChars y with
    | some hx, some hy => some (hx, hy)
    | _, _ => none
  | _ => none

/-- `RenfeScraperPlaywright._min_diff` (renfe_scrapper.py:112-119):
absolute difference in minutes between two "HH:MM" strings; any parsing
exception yields 9999. -/
def minDiffFn (a b : String) : Nat :=
  match parseHHMM a, parseHHMM b with
  | some (ha, ma), some (hb, mb) => ((ha * 60 + ma) - (hb * 60 + mb)).natAbs
  | _, _ => 9999

/-- Shape of the departure strings produced by `_extraer_trayectos_ida`
(they are `m.group(0)` of `re.search(r"\b\d{2}:\d{2}\b", ...)`): exactly
two digits, a colon, two digits. -/
def isHHMMShape (s : String) : Bool :=
  match s.toList with
  | [a, b, c, d, e] =>
    isDigitChar a && isDigitChar b && decide (c = ':') && isDigitChar d && isDigitChar e
  | _ => false

/- ============== Legacy id repair (`_parse_salida_from_id`) ============== -/

/-- Whether the pattern `\d{2}:\d{2}` matches at index `i` of `cs`. -/
def hhmmAt (cs : List Char) (i : Nat) : Bool :=
  match cs.drop i with
  | a :: b :: c :: d :: e :: _ =>
    isDigitChar a && isDigitChar b && decide (c = ':') && isDigitChar d && isDigitChar e
  | _ => false

/-- The `\b` anchor before position `i` (the pattern starts with a word
character, so the previous character must be absent or non-word). -/
def boundaryAt (cs : List Char) (i : Nat) : Bool :=
  decide (i = 0) || !(isWordCharB (cs.getD (i - 1) ' '))

/-- The `\b` anchor after the five matched characters. -/
def boundaryAfter5 (cs : List Char) (i : Nat) : Bool :=
  decide (cs.length ≤ i + 5) || !(isWordCharB (cs.getD (i + 5) ' '))

/-- `_parse_salida_from_id` (telegram_bot.py:123-133): leftmost match of
`re.search(r"\b(\d{2}:\d{2})\b", item_id)`, or `None`. -/
def parseSalidaFromId (itemId : String) : Option String :=
  let cs := itemId.toList
  ((List.range cs.length).find?
      (fun i => boundaryAt cs i && hhmmAt cs i && boundaryAfter5 cs i)).map
    (fun i => String.mk ((cs.drop i).take 5))

/- ===================== Date validation ===================== -/

/-- Gregorian leap-year rule used by `datetime.strptime`. -/
def isLeap (y : Nat) : Bool := (y % 4 == 0 && y % 100 != 0) || y % 400 == 0

/-- Days in a month, as enforced by `datetime.strptime(s, "%d/%m/%Y")`. -/
def daysInMonth (m y : Nat) : Nat :=
  if m = 2 then (if isLeap y then 29 else 28)
  else if m == 4 || m == 6 || m == 9 || m == 11 then 30
  else 31

/-- Validity of a day/month/year triple for `datetime` (years 1..9999). -/
def validDMY (d m y : Nat) : Bool :=
  decide (1 ≤ y) && decide (y ≤ 9999) && decide (1 ≤ m) && decide (m ≤ 12) &&
  decide (1 ≤ d) && decide (d ≤ daysInMonth m y)

/-- `normalize_date` (telegram_bot.py:323-331): strip, match the regex
`^\d{2}/\d{2}/\d{4}$`, then check `datetime.strptime(s, "%d/%m/%Y")`
accepts it; returns the stripped string on success, else `None`. -/
def normalizeDate (s : String) : Option String :=
  let t := pyStrip s
  match t.toList with
  | [d1, d2, s1, m1, m2, s2, y1, y2, y3, y4] =>
    if isDigitChar d1 && isDigitChar d2 && decide (s1 = '/') &&
       isDigitChar m1 && isDigitChar m2 && decide (s2 = '/') &&
       isDigitChar y1 && isDigitChar y2 && isDigitChar y3 && isDigitChar y4 then
      let d := digitVal d1 * 10 + digitVal d2
      let m := digitVal m1 * 10 + digitVal m2
      let y := digitVal y1 * 1000 + digitVal y2 * 100 + digitVal y3 * 10 + digitVal y4
      if validDMY d m y then some t else none
    else none
  | _ => none

/- ===================== Data model ===================== -/

/-- The `MonitoredTrain` dataclass (telegram_bot.py:63-72).  `added_at`
is an informational wall-clock timestamp; the clock is abstracted, so the
default factory is modelled by a fixed string. -/
structure MonitoredTrain where
  id : String
  chat_id : Int
  origen : String
  destino : String
  fecha : String
  salida : String
  tolerancia_min : Int
  added_at : String
deriving DecidableEq, Repr

/-- Default for the `added_at` field (`datetime.now(TZ_MADRID).isoformat()`;
the wall clock is external, so a fixed placeholder stands for it). -/
def defaultAddedAt : String := ""

/-- One JSON object of the persisted collection.  A `none` field models a
missing key; `extraKeys` lists the names of any unknown keys in the
object.  JSON values of unexpected runtime type are out of scope: the
persisted data is only ever produced by `asdict(MonitoredTrain(...))`. -/
structure RawRecord where
  id : Option String := none
  chat_id : Option Int := none
  origen : Option String := none
  destino : Option String := none
  fecha : Option String := none
  salida : Option String := none
  tolerancia_min : Option Int := none
  added_at : Option String := none
  extraKeys : List String := []
deriving DecidableEq, Repr

/-- The `MonitoredTrain(**d)` constructor call: raises (`Except.error`)
when the dict carries an unexpected keyword or misses a required field
(`id`, `chat_id`, `origen`, `destino`, `fecha`, `salida` have no
defaults); `tolerancia_min` defaults to 5 and `added_at` to the default
factory value. -/
def mkMonitoredTrain (d : RawRecord) : Except String MonitoredTrain :=
  if d.extraKeys ≠ [] then Except.error "unexpected keyword argument"
  else
    match d.id, d.chat_id, d.origen, d.destino, d.fecha, d.salida with
    | some i, some c, some o, some de, some f, some s =>
      Except.ok
        { id := i, chat_id := c, origen := o, destino := de, fecha := f,
          salida := s, tolerancia_min := d.tolerancia_min.getD 5,
          added_at := d.added_at.getD defaultAddedAt }
    | _, _, _, _, _, _ => Except.error "missing required argument"

/-- `asdict(item)` (telegram_bot.py:101): every field of the dataclass is
written out; there are no extra keys. -/
def recordOfItem (it : MonitoredTrain) : RawRecord :=
  { id := some it.id, chat_id := some it.chat_id, origen := some it.origen,
    destino := some it.destino, fecha := some it.fecha, salida := some it.salida,
    tolerancia_min := some it.tolerancia_min, added_at := some it.added_at,
    extraKeys := [] }

/-- The defensive fill of `salida` in `_list_all_items`
(telegram_bot.py:144-146): when the key is absent or falsy, it is set to
`_parse_salida_from_id(d.get("id", "")) or "00:00"`. -/
def repairRecord (d : RawRecord) : RawRecord :=
  if d.salida = none ∨ d.salida = some "" then
    { d with salida := some (pyOrStr (parseSalidaFromId (d.id.getD "")) "00:00") }
  else d

/-- One iteration of the `_list_all_items` loop (telegram_bot.py:142-150):
repair `salida`, construct the dataclass, and skip the record
(`except Exception: continue`) if construction raises. -/
def loadOne (d : RawRecord) : Option MonitoredTrain :=
  (mkMonitoredTrain (repairRecord d)).toOption

/-- `_list_all_items` (telegram_bot.py:135-151): every record of the raw
collection that survives repair-and-construct, in order. -/
def listAllItems (data : List RawRecord) : List MonitoredTrain :=
  data.filterMap loadOne

/-- The list comprehension `[MonitoredTrain(**d) for d in ...]`: builds
the list left to right, propagating the first constructor exception. -/
def buildTrainList : List RawRecord → Except String (List MonitoredTrain)
  | [] => Except.ok []
  | d :: rest =>
    match mkMonitoredTrain d with
    | Except.error e => Except.error e
    | Except.ok it =>
      match buildTrainList rest with
      | Except.error e => Except.error e
      | Except.ok its => Except.ok (it :: its)

/-- `Store.list_for_chat` (telegram_bot.py:92-94): filter the raw records
by `chat_id` and construct a `MonitoredTrain` from each, with no repair
and no per-record exception handling. -/
def listForChat (data : List RawRecord) (chat : Int) : Except String (List MonitoredTrain) :=
  buildTrainList (data.filter (fun d => decide (d.chat_id = some chat)))

/-- Whether an `Except` computation finished without raising. -/
def exceptOk {ε α : Type} : Except ε α → Bool
  | Except.ok _ => true
  | Except.error _ => false

/- ===================== Store mutations ===================== -/

/-- `Store.add` (telegram_bot.py:96-102) on the loaded data list: drop
every record whose `id` equals the new item's id, then append the new
record. -/
def addData (data : List RawRecord) (item : MonitoredTrain) : List RawRecord :=
  (data.filter (fun d => decide (d.id ≠ some item.id))) ++ [recordOfItem item]

/-- The `d.get("id") not in ids_set` test of `Store.remove_ids`
(a record without an `id` key is never selected for removal, since
`None` is not a member of a set of strings). -/
def removedPred (ids : List String) (d : RawRecord) : Bool :=
  match d.id with
  | some i => ids.contains i
  | none => false

/-- `Store.remove_ids` (telegram_bot.py:104-112) on the loaded data list:
keep the records whose id is not in the set, and return the new list
together with `before - len(after)`. -/
def removeIdsData (data : List RawRecord) (ids : List String) : List RawRecord × Nat :=
  let keep := data.filter (fun d => !(removedPred ids d))
  (keep, data.length - keep.length)

/-- Number of records of the collection carrying a given id. -/
def countWithId (data : List RawRecord) (i : String) : Nat :=
  data.countP (fun d => decide (d.id = some i))

/-- The store-uniqueness invariant: no two records carry the same id. -/
def noDupIds (data : List RawRecord) : Prop :=
  (data.filterMap (fun d => d.id)).Nodup

/- ===================== Persistence states ===================== -/

/-- State of the backing file `monitored_trains.json`: absent, present
but not valid JSON, or a parsed list of records. -/
inductive FileState where
  | missing
  | unparsable
  | parsed (data : List RawRecord)
deriving DecidableEq, Repr

/-- `Store._load` (telegram_bot.py:81-87): `[]` when the file does not
exist, `[]` when `json.loads` raises, else the parsed list. -/
def loadStore : FileState → List RawRecord
  | FileState.missing => []
  | FileState.unparsable => []
  | FileState.parsed data => data

/- ===================== Availability check (scraper) ===================== -/

/-- One row extracted by `_extraer_trayectos_ida`
(renfe_scrapper.py:454-491): the dict `{"salida", "llegada", "estado"}`,
always carrying all three keys. -/
structure Viaje where
  salida : String
  llegada : String
  estado : String
deriving DecidableEq, Repr

/-- The result dict of `esta_lleno_en_hora` (renfe_scrapper.py:593-599). -/
structure CheckRes where
  ok : Bool
  estado : String
  salida : Option String
  llegada : Option String
  url : Option String
deriving DecidableEq, Repr

/-- The initial/fall-through result value of `esta_lleno_en_hora`:
`{"ok": False, "estado": "NO_ENCONTRADO", "salida": None, "llegada": None}`
with whatever url the search produced. -/
def notFoundRes (url : Option String) : CheckRes :=
  { ok := false, estado := "NO_ENCONTRADO", salida := none, llegada := none, url := url }

/-- The `for v in viajes` selection loop of `esta_lleno_en_hora`
(renfe_scrapper.py:610-616): running best candidate and its minute
difference, starting from `(None, 10**9)`.  (The `"salida" not in v`
guard of the source is vacuous: every extracted row carries the key.) -/
def bestLoop (hora : String) (tol : Int) : List Viaje → Option Viaje × Nat → Option Viaje × Nat
  | [], acc => acc
  | v :: rest, acc =>
    let diff := minDiffFn v.salida hora
    bestLoop hora tol rest
      (if (diff : Int) ≤ tol ∧ diff < acc.2 then (some v, diff) else acc)

/-- The trip selected by `esta_lleno_en_hora` (renfe_scrapper.py:610-622):
the tolerance-window loop, then the exact-string fallback
`v.get("salida") == hora_objetivo`. -/
def selectViaje (viajes : List Viaje) (hora : String) (tol : Int) : Option Viaje :=
  match bestLoop hora tol viajes (none, 1000000000) with
  | (some m, _) => some m
  | (none, _) => viajes.find? (fun v => decide (v.salida = hora))

/-- `esta_lleno_en_hora` (renfe_scrapper.py:579-657) as a function of the
page outcome: `buscOk` and `url` are `busc["ok"]`/`busc["url"]` from
`buscar_billetes`, and `viajes` is the list `_extraer_trayectos_ida`
produced (which is `[]` both when the page genuinely listed no usable
rows and when extraction failed internally, since that helper catches its
own exceptions and returns `[]`).  Every failure path of the source is
caught, so the function always returns a plain result value. -/
def estaLlenoEnHora (buscOk : Bool) (url : Option String) (viajes : List Viaje)
    (horaObjetivo : String) (toleranciaMin : Int) : CheckRes :=
  if !buscOk then notFoundRes url
  else
    match selectViaje viajes horaObjetivo toleranciaMin with
    | none => notFoundRes url
    | some m =>
      { ok := true, estado := m.estado, salida := some m.salida,
        llegada := some m.llegada, url := url }

/- ===================== Sweep engine ===================== -/

/-- The `estado = (res.get("estado") or "").upper()` step of the sweep
(telegram_bot.py:210). -/
def estadoUp (r : CheckRes) : String := pyUpper (pyOrStr (some r.estado) "")

/-- The notification-and-collection loop of `_check_once_and_notify`
(telegram_bot.py:206-226) over the gathered `(watch, result)` pairs: a
`None` result is skipped; a result whose state upper-cases to "OK" leads
to one `send_message` attempt, and the watch id is appended to the
removal batch only when that attempt succeeds (`notifyOk`); a failed
attempt is caught and contributes nothing. -/
def collectRemovals : List (MonitoredTrain × Option CheckRes) → (MonitoredTrain → Bool) → List String
  | [], _ => []
  | (_, none) :: rest, f => collectRemovals rest f
  | (it, some r) :: rest, f =>
    if estadoUp r = "OK" ∧ f it = true then it.id :: collectRemovals rest f
    else collectRemovals rest f

/-- The notification attempts the same loop performs: one per watch whose
result state upper-cases to "OK", paired with the delivery outcome. -/
def notifyAttempts : List (MonitoredTrain × Option CheckRes) → (MonitoredTrain → Bool) → List (String × Bool)
  | [], _ => []
  | (_, none) :: rest, f => notifyAttempts rest f
  | (it, some r) :: rest, f =>
    if estadoUp r = "OK" then (it.id, f it) :: notifyAttempts rest f
    else notifyAttempts rest f

/-- Per-watch removal decision: a watch is queued for removal exactly
when its check produced a result in state "OK" and its notification
succeeded. -/
def removalDecision : Option CheckRes → Bool → Bool
  | none, _ => false
  | some r, nok => decide (estadoUp r = "OK") && nok

/-- One full sweep of `_check_once_and_notify` (telegram_bot.py:153-232)
over the raw store content: load all items (with repair), gather one
check result per item (`checker it = none` models a raised/failed check,
caught by `_check_item`), run the notification loop, and batch-remove
the collected ids (the batch is only applied when non-empty, mirroring
`if to_remove_ids:`). -/
def sweepStoreData (data : List RawRecord) (checker : MonitoredTrain → Option CheckRes)
    (notifyOk : MonitoredTrain → Bool) : List RawRecord :=
  let items := listAllItems data
  if items.isEmpty then data
  else
    let results := items.map (fun it => (it, checker it))
    let toRemove := collectRemovals results notifyOk
    if toRemove.isEmpty then data
    else (removeIdsData data toRemove).1

/- ===================== Registration flow ===================== -/

/-- A candidate row as `choose_train` sees it: a dict whose keys may in
principle be absent (`.get` is used for `estado`; `['salida']` and
`['llegada']` raise `KeyError` when absent). -/
structure RawViaje where
  salida : Option String := none
  llegada : Option String := none
  estado : Option String := none
deriving DecidableEq, Repr

/-- The `(elegido.get("estado") or "").strip().upper()` step of
`choose_train` (telegram_bot.py:464). -/
def estadoOf (v : RawViaje) : String := pyUpper (pyStrip (pyOrStr v.estado ""))

/-- The `MonitoredTrain` built by `choose_train` (telegram_bot.py:480-488):
id derived from chat, date, departure, origin and destination; tolerance 5. -/
def mkItem (chat : Int) (fecha salida origen destino : String) : MonitoredTrain :=
  { id := toString chat ++ "-" ++ fecha ++ "-" ++ salida ++ "-" ++ origen ++ "-" ++ destino,
    chat_id := chat, origen := origen, destino := destino, fecha := fecha,
    salida := salida, tolerancia_min := 5, added_at := defaultAddedAt }

/-- Outcome of one registration attempt through `show_trains` /
`choose_train`.  `crashed` marks an uncaught `KeyError` (candidate
missing a required key); every other constructor is a graceful reply. -/
inductive RegResult where
  | badDate
  | searchFailed
  | noTrains
  | badNumber
  | outOfRange
  | alreadyAvailable (salida llegada : String)
  | crashed
  | saved (item : MonitoredTrain)
deriving DecidableEq, Repr

/-- The registration pipeline of `show_trains` (telegram_bot.py:414-441)
followed by `choose_train` (telegram_bot.py:443-499): validate the date,
run the search (`search = none` models `run_scraper_search` raising, which
`show_trains` catches and reports), refuse an empty train list, parse the
chosen index, bounds-check it, and then either refuse an "OK" (available)
candidate without saving, or build the item and `STORE.add` it.  Returns
the outcome together with the resulting store data. -/
def registerFlow (chat : Int) (origen destino dateInput : String)
    (search : Option (List RawViaje)) (choice : String)
    (store : List RawRecord) : RegResult × List RawRecord :=
  match normalizeDate dateInput with
  | none => (RegResult.badDate, store)
  | some fecha =>
    match search with
    | none => (RegResult.searchFailed, store)
    | some viajes =>
      if viajes.isEmpty then (RegResult.noTrains, store)
      else
        match pyInt choice with
        | none => (RegResult.badNumber, store)
        | some n =>
          let idx := n - 1
          if 0 ≤ idx then
            match viajes.get? idx.toNat with
            | none => (RegResult.outOfRange, store)
            | some elegido =>
              if estadoOf elegido = "OK" then
                match elegido.salida, elegido.llegada with
                | some s, some l => (RegResult.alreadyAvailable s l, store)
                | _, _ => (RegResult.crashed, store)
              else
                match elegido.salida with
                | some s =>
                  (RegResult.saved (mkItem chat fecha s origen destino),
                   addData store (mkItem chat fecha s origen destino))
                | none => (RegResult.crashed, store)
          else (RegResult.outOfRange, store)

/- ===================== Sample data ===================== -/

/-- A concrete monitored train used to instantiate the theorems. -/
def trainA : MonitoredTrain :=
  { id := "7-06/10/2025-08:00-A-B", chat_id := 7, origen := "A", destino := "B",
    fecha := "06/10/2025", salida := "08:00", tolerancia_min := 5, added_at := "t" }

/-- A concrete legacy persisted record: it lacks the `salida` key, and its
id embeds the departure time "06:34". -/
def legacyRec : RawRecord :=
  { id := some "483-06/10/2025-06:34-Vigo U-A coruna", chat_id := some 483,
    origen := some "Vigo U", destino := some "A coruna", fecha := some "06/10/2025" }

/-- A concrete persisted record carrying one unknown extra field. -/
def extraRec : RawRecord :=
  { recordOfItem trainA with extraKeys := ["nota"] }

/-- A concrete check result in state "OK" (trip now available). -/
def okRes : CheckRes :=
  { ok := true, estado := "OK", salida := some "08:01", llegada := some "08:57",
    url := some "https://renfe.example" }

/-- A concrete extracted trip at 07:59, full. -/
def viajeFull : Viaje := { salida := "07:59", llegada := "08:55", estado := "LLENO" }

/-- A concrete extracted trip at 08:10, available. -/
def viajeFree : Viaje := { salida := "08:10", llegada := "09:05", estado := "OK" }

/-- A concrete extracted trip at 09:10, available but far from 08:00. -/
def viajeLate : Viaje := { salida := "09:10", llegada := "10:05", estado := "OK" }

/-- A concrete candidate row (dict form) for a full trip. -/
def rawFull : RawViaje :=
  { salida := some "07:59", llegada := some "08:55", estado := some "LLENO" }

/-- A concrete candidate row (dict form) for an available trip. -/
def rawFree : RawViaje :=
  { salida := some "08:10", llegada := some "09:05", estado := some "OK" }

/- ===================== Supporting lemmas ===================== -/

theorem length_sub_filter_not (p : RawRecord → Bool) (l : List RawRecord) :
    l.length - (l.filter (fun a => !(p a))).length = l.countP p := by
  induction l with
  | nil => rfl
  | cons a l ih =>
    have hle : (l.filter (fun x => !(p x))).length ≤ l.length := List.length_filter_le _ _
    cases h : p a <;> simp [List.filter_cons, h, List.countP_cons] <;> omega

theorem removedPred_single (i : String) (d : RawRecord) :
    removedPred [i] d = decide (d.id = some i) := by
  unfold removedPred
  cases hd : d.id with
  | none => simp
  | some j =>
    by_cases h : j = i
    · subst h; simp [List.contains]
    · simp [List.contains, h, Option.some.injEq]

/- ===================== Claim C8 ===================== -/

/-- C8: reading the persisted watch collection never fails fatally.  When
the backing file is missing or its contents cannot be parsed,
`Store._load` returns the empty collection, and every operation built on
it (the per-chat listing, the sweep loader, the sweep itself) behaves as
if there were zero watches rather than raising. -/
theorem c8_load_degrades_to_empty :
    loadStore FileState.missing = [] ∧ loadStore FileState.unparsable = [] ∧
    (∀ c : Int, listForChat (loadStore FileState.missing) c = Except.ok [] ∧
      listForChat (loadStore FileState.unparsable) c = Except.ok []) ∧
    listAllItems (loadStore FileState.missing) = [] ∧
    listAllItems (loadStore FileState.unparsable) = [] ∧
    (∀ (checker : MonitoredTrain → Option CheckRes) (notifyOk : MonitoredTrain → Bool),
      sweepStoreData (loadStore FileState.missing) checker notifyOk = [] ∧
      sweepStoreData (loadStore FileState.unparsable) checker notifyOk = []) :=
  ⟨rfl, rfl, fun _ => ⟨rfl, rfl⟩, rfl, rfl, fun _ _ => ⟨rfl, rfl⟩⟩

/- ===================== Claim C9 ===================== -/

/-- C9: `Store.remove_ids` is idempotent and returns the exact number of
records actually removed.  The count returned is the number of records
whose id is in the requested set; removing ids absent from the store is
not an error, removes nothing and contributes zero; for a store holding
exactly one record with a given id, removing that id returns 1 the first
time, and a second identical call removes 0 and leaves the store
unchanged. -/
theorem c9_remove_ids_exact_and_idempotent :
    (∀ (data : List RawRecord) (ids : List String),
      (removeIdsData data ids).2 = data.countP (removedPred ids)) ∧
    (∀ (data : List RawRecord) (ids : List String),
      (∀ d ∈ data, removedPred ids d = false) → removeIdsData data ids = (data, 0)) ∧
    (∀ (data : List RawRecord) (i : String),
      countWithId data i = 1 → (removeIdsData data [i]).2 = 1) ∧
    (∀ (data : List RawRecord) (i : String),
      (removeIdsData (removeIdsData data [i]).1 [i]).2 = 0 ∧
      (removeIdsData (removeIdsData data [i]).1 [i]).1 = (removeIdsData data [i]).1) := by
  have hcount : ∀ (data : List RawRecord) (ids : List String),
      (removeIdsData data ids).2 = data.countP (removedPred ids) := by
    intro data ids
    exact length_sub_filter_not (removedPred ids) data
  refine ⟨hcount, ?_, ?_, ?_⟩
  · intro data ids h
    unfold removeIdsData
    have hfil : data.filter (fun d => !(removedPred ids d)) = data :=
      List.filter_eq_self.mpr (fun d hd => by simp [h d hd])
    simp [hfil]
  · intro data i h
    rw [hcount]
    have hc : data.countP (removedPred [i]) = data.countP (fun d => decide (d.id = some i)) :=
      List.countP_congr (fun d _ => by simp [removedPred_single])
    rw [hc]
    exact h
  · intro data i
    constructor
    · rw [hcount]
      unfold removeIdsData
      simp only
      rw [List.countP_eq_zero]
      intro d hd
      have := (List.mem_filter.mp hd).2
      simp at this
      simp [this]
    · unfold removeIdsData
      simp only
      rw [List.filter_filter]
      apply List.filter_congr
      intro d _
      cases h : removedPred [i] d <;> simp

/-- Witness for C9 applied at a concrete store of one record. -/
theorem c9_witness :
    (removeIdsData [recordOfItem trainA] [trainA.id]).2 = 1 ∧
    (removeIdsData (removeIdsData [recordOfItem trainA] [trainA.id]).1 [trainA.id]).2 = 0 :=
  ⟨c9_remove_ids_exact_and_idempotent.2.2.1 _ trainA.id (by decide),
   (c9_remove_ids_exact_and_idempotent.2.2.2 _ trainA.id).1⟩

/- ===================== Claim C2 ===================== -/

theorem addData_count_self (data : List RawRecord) (it : MonitoredTrain) :
    countWithId (addData data it) it.id = 1 := by
  unfold countWithId addData
  rw [List.countP_append]
  have h1 : (data.filter (fun d => decide (d.id ≠ some it.id))).countP
      (fun d => decide (d.id = some it.id)) = 0 := by
    rw [List.countP_eq_zero]
    intro d hd
    have := (List.mem_filter.mp hd).2
    simp at this ⊢
    exact this
  rw [h1]
  simp [List.countP_cons, recordOfItem]

theorem addData_noDupIds (data : List RawRecord) (it : MonitoredTrain) :
    noDupIds data → noDupIds (addData data it) := by
  intro h
  unfold noDupIds addData
  rw [List.filterMap_append]
  apply List.Nodup.append
  · exact ((List.filter_sublist data).filterMap _).nodup h
  · exact List.nodup_singleton _
  · intro x hx hy
    obtain ⟨d, hd, hid⟩ := List.mem_filterMap.mp hx
    have hkeep := (List.mem_filter.mp hd).2
    simp only [decide_eq_true_eq] at hkeep
    have : x = it.id := by
      simpa [recordOfItem] using hy
    exact hkeep (by rw [hid, this])

theorem count_foldl_addData_replicate (it : MonitoredTrain) :
    ∀ (n : Nat) (store : List RawRecord),
      countWithId (List.foldl addData store (List.replicate (n + 1) it)) it.id = 1 := by
  intro n
  induction n with
  | zero => intro store; simpa using addData_count_self store it
  | succ m ih =>
    intro store
    rw [List.replicate_succ, List.foldl_cons]
    exact ih (addData store it)

theorem noDup_foldl_addData_replicate (it : MonitoredTrain) :
    ∀ (n : Nat) (store : List RawRecord),
      noDupIds store → noDupIds (List.foldl addData store (List.replicate n it)) := by
  intro n
  induction n with
  | zero => intro store h; simpa using h
  | succ m ih =>
    intro store h
    rw [List.replicate_succ, List.foldl_cons]
    exact ih (addData store it) (addData_noDupIds store it h)

/-- C2: for every nonempty sequence of identical registrations (same
chat, date, departure time, origin and destination, hence the same
derived id), the store afterwards contains exactly one record with that
derived id, starting from any store; and `Store.add` preserves the
invariant that the store never holds two records with the same id. -/
theorem c2_identical_registrations_keep_one_watch :
    ∀ (store : List RawRecord) (chat : Int) (origen destino fecha salida : String) (n : Nat),
      n ≠ 0 →
      countWithId
        (List.foldl addData store (List.replicate n (mkItem chat fecha salida origen destino)))
        (mkItem chat fecha salida origen destino).id = 1 ∧
      (noDupIds store →
        noDupIds
          (List.foldl addData store (List.replicate n (mkItem chat fecha salida origen destino)))) := by
  intro store chat origen destino fecha salida n hn
  obtain ⟨m, rfl⟩ : ∃ m, n = m + 1 := ⟨n - 1, by omega⟩
  exact ⟨count_foldl_addData_replicate _ m store,
    fun h => noDup_foldl_addData_replicate _ (m + 1) store h⟩

/-- Witness for C2: registering the same watch twice over an initially
empty store leaves exactly one record with the derived id, and no
duplicate ids. -/
theorem c2_witness :
    countWithId (List.foldl addData [] (List.replicate 2 (mkItem 7 "06/10/2025" "08:00" "A" "B")))
      (mkItem 7 "06/10/2025" "08:00" "A" "B").id = 1 ∧
    noDupIds (List.foldl addData [] (List.replicate 2 (mkItem 7 "06/10/2025" "08:00" "A" "B"))) := by
  have h := c2_identical_registrations_keep_one_watch [] 7 "A" "B" "06/10/2025" "08:00" 2
    (by decide)
  exact ⟨h.1, h.2 (by simp [noDupIds])⟩

/- ===================== Claim C4 ===================== -/

theorem collectRemovals_skip_none (pre post : List (MonitoredTrain × Option CheckRes))
    (a : MonitoredTrain) (f : MonitoredTrain → Bool) :
    collectRemovals (pre ++ (a, none) :: post) f = collectRemovals (pre ++ post) f := by
  induction pre with
  | nil => rfl
  | cons p rest ih =>
    obtain ⟨it, res⟩ := p
    cases res with
    | none => simpa [collectRemovals] using ih
    | some r =>
      by_cases h : estadoUp r = "OK" ∧ f it = true <;>
        simp [collectRemovals, h, ih]

theorem notifyAttempts_skip_none (pre post : List (MonitoredTrain × Option CheckRes))
    (a : MonitoredTrain) (f : MonitoredTrain → Bool) :
    notifyAttempts (pre ++ (a, none) :: post) f = notifyAttempts (pre ++ post) f := by
  induction pre with
  | nil => rfl
  | cons p rest ih =>
    obtain ⟨it, res⟩ := p
    cases res with
    | none => simpa [notifyAttempts] using ih
    | some r =>
      by_cases h : estadoUp r = "OK" <;>
        simp [notifyAttempts, h, ih]

theorem collectRemovals_map_eq (items : List MonitoredTrain)
    (checker : MonitoredTrain → Option CheckRes) (f : MonitoredTrain → Bool) :
    collectRemovals (items.map (fun it => (it, checker it))) f =
      (items.filter (fun it => removalDecision (checker it) (f it))).map
        (fun it => it.id) := by
  induction items with
  | nil => rfl
  | cons it rest ih =>
    simp only [List.map_cons, List.filter_cons]
    cases hres : checker it with
    | none =>
      simp [collectRemovals, removalDecision, ih]
    | some r =>
      by_cases h : estadoUp r = "OK" ∧ f it = true
      · have hd : removalDecision (some r) true = true := by
          simp [removalDecision, h.1]
        simp [collectRemovals, h, h.2, hd, ih]
      · have hd : removalDecision (some r) (f it) = false := by
          cases hf : f it with
          | false => simp [removalDecision]
          | true =>
            have hok : ¬ estadoUp r = "OK" := fun hok => h ⟨hok, hf⟩
            simp [removalDecision, hok]
        simp [collectRemovals, h, hd, ih]

/-- C4: within one sweep, a failed check never changes any other watch's
outcome.  A check failure is recorded as a `(watch, None)` pair, and the
notification/removal loop treats such an entry as if it were absent; and
over the gathered results the removal batch (and the list of notification
attempts) is a per-watch function of that watch's own check result and
notify outcome only. -/
theorem c4_sweep_isolation :
    (∀ (pre post : List (MonitoredTrain × Option CheckRes)) (a : MonitoredTrain)
        (f : MonitoredTrain → Bool),
      collectRemovals (pre ++ (a, none) :: post) f = collectRemovals (pre ++ post) f ∧
      notifyAttempts (pre ++ (a, none) :: post) f = notifyAttempts (pre ++ post) f) ∧
    (∀ (items : List MonitoredTrain) (checker : MonitoredTrain → Option CheckRes)
        (f : MonitoredTrain → Bool),
      collectRemovals (items.map (fun it => (it, checker it))) f =
        (items.filter (fun it => removalDecision (checker it) (f it))).map
          (fun it => it.id)) :=
  ⟨fun pre post a f => ⟨collectRemovals_skip_none pre post a f,
    notifyAttempts_skip_none pre post a f⟩,
   fun items checker f => collectRemovals_map_eq items checker f⟩

/- ===================== Claim C1 ===================== -/

theorem repairRecord_id (d : RawRecord) : (repairRecord d).id = d.id := by
  unfold repairRecord; split <;> rfl

theorem loadOne_id (d : RawRecord) (it : MonitoredTrain) (h : loadOne d = some it) :
    d.id = some it.id := by
  have hid := repairRecord_id d
  unfold loadOne mkMonitoredTrain at h
  split at h
  · simp [Except.toOption] at h
  · split at h
    · simp only [Except.toOption, Option.some.injEq] at h
      subst h
      rw [← hid]
      assumption
    · simp [Except.toOption] at h

theorem sweepStoreData_eq (data : List RawRecord) (checker : MonitoredTrain → Option CheckRes)
    (notifyOk : MonitoredTrain → Bool) :
    sweepStoreData data checker notifyOk =
      if (listAllItems data).isEmpty then data
      else if (collectRemovals ((listAllItems data).map (fun it => (it, checker it)))
          notifyOk).isEmpty then data
      else (removeIdsData data (collectRemovals ((listAllItems data).map
          (fun it => (it, checker it))) notifyOk)).1 := rfl

/-- C1: in a sweep, a watch is removed from the store only if its
notification was sent successfully.  If a watch's check failed
(`checker it = none`), or yielded a non-"OK" state, or its `send_message`
failed (`notifyOk it = false`), the watch stays in the store for the next
sweep (assuming, as `Store.add` guarantees, that loaded watch ids are
unique); and conversely every record removed by the sweep corresponds to
a loaded watch whose check came back "OK" and whose notification
succeeded. -/
theorem c1_removal_only_after_successful_notify :
    ∀ (data : List RawRecord) (checker : MonitoredTrain → Option CheckRes)
      (notifyOk : MonitoredTrain → Bool),
      (∀ it, it ∈ listAllItems data →
        ((listAllItems data).map (fun x => x.id)).Nodup →
        (checker it = none ∨ (∀ r, checker it = some r → ¬ estadoUp r = "OK") ∨
          notifyOk it = false) →
        it ∈ listAllItems (sweepStoreData data checker notifyOk)) ∧
      (∀ d, d ∈ data → d ∉ sweepStoreData data checker notifyOk →
        ∃ it r, it ∈ listAllItems data ∧ d.id = some it.id ∧
          checker it = some r ∧ estadoUp r = "OK" ∧ notifyOk it = true) := by
  intro data checker notifyOk
  constructor
  · intro it hmem hnodup hfail
    rw [sweepStoreData_eq]
    have hne : ¬ (listAllItems data).isEmpty = true := by
      cases hi : listAllItems data with
      | nil => rw [hi] at hmem; cases hmem
      | cons a l => simp [hi]
    rw [if_neg hne]
    by_cases htr : (collectRemovals ((listAllItems data).map
        (fun i => (i, checker i))) notifyOk).isEmpty
    · rw [if_pos htr]; exact hmem
    · rw [if_neg htr]
      have hnotin : it.id ∉ collectRemovals ((listAllItems data).map
          (fun i => (i, checker i))) notifyOk := by
        intro hin
        rw [collectRemovals_map_eq] at hin
        simp only [List.mem_map, List.mem_filter] at hin
        obtain ⟨it', ⟨hit', hdec⟩, hideq⟩ := hin
        have heq : it' = it :=
          List.inj_on_of_nodup_map hnodup hit' hmem hideq
        subst heq
        rcases hfail with hf | hf | hf
        · rw [hf] at hdec; simp [removalDecision] at hdec
        · cases hc : checker it' with
          | none => rw [hc] at hdec; simp [removalDecision] at hdec
          | some r =>
            rw [hc] at hdec
            simp only [removalDecision, Bool.and_eq_true, decide_eq_true_eq] at hdec
            exact hf r hc hdec.1
        · cases hc : checker it' with
          | none => rw [hc] at hdec; simp [removalDecision] at hdec
          | some r =>
            rw [hc, hf] at hdec
            simp [removalDecision] at hdec
      obtain ⟨d0, hd0, hload⟩ := List.mem_filterMap.mp hmem
      apply List.mem_filterMap.mpr
      refine ⟨d0, ?_, hload⟩
      unfold removeIdsData
      simp only
      apply List.mem_filter.mpr
      refine ⟨hd0, ?_⟩
      have hid := loadOne_id d0 it hload
      simp only [removedPred, hid, Bool.not_eq_true']
      simp [List.contains, hnotin]
  · intro d hd hnot
    rw [sweepStoreData_eq] at hnot
    by_cases hempty : (listAllItems data).isEmpty
    · rw [if_pos hempty] at hnot; exact absurd hd hnot
    · rw [if_neg hempty] at hnot
      by_cases htr : (collectRemovals ((listAllItems data).map
          (fun i => (i, checker i))) notifyOk).isEmpty
      · rw [if_pos htr] at hnot; exact absurd hd hnot
      · rw [if_neg htr] at hnot
        unfold removeIdsData at hnot
        simp only at hnot
        have hpred : removedPred (collectRemovals ((listAllItems data).map
            (fun i => (i, checker i))) notifyOk) d = true := by
          by_contra hf
          exact hnot (List.mem_filter.mpr ⟨hd, by
            simp only [Bool.not_eq_true] at hf
            simp [hf]⟩)
        cases hdid : d.id with
        | none => rw [removedPred, hdid] at hpred; cases hpred
        | some i =>
          rw [removedPred, hdid] at hpred
          have hin : i ∈ collectRemovals ((listAllItems data).map
              (fun i => (i, checker i))) notifyOk := by
            simpa [List.contains] using hpred
          rw [collectRemovals_map_eq] at hin
          simp only [List.mem_map, List.mem_filter] at hin
          obtain ⟨it', ⟨hit', hdec⟩, hideq⟩ := hin
          cases hc : checker it' with
          | none => rw [hc] at hdec; simp [removalDecision] at hdec
          | some r =>
            rw [hc] at hdec
            simp only [removalDecision, Bool.and_eq_true, decide_eq_true_eq] at hdec
            exact ⟨it', r, hit', by rw [hideq], hc, hdec.1, hdec.2⟩

/-- Witness for C1: both directions at a one-record store whose check
fails (the watch stays) and at one whose check is "OK" with a successful
notification (the record goes, and the theorem recovers the successful
watch). -/
theorem c1_witness :
    trainA ∈ listAllItems (sweepStoreData [recordOfItem trainA]
      (fun _ => none) (fun _ => false)) ∧
    (∃ it r, it ∈ listAllItems [recordOfItem trainA] ∧
      (recordOfItem trainA).id = some it.id ∧
      (fun _ : MonitoredTrain => some okRes) it = some r ∧ estadoUp r = "OK" ∧
      (fun _ : MonitoredTrain => true) it = true) :=
  ⟨(c1_removal_only_after_successful_notify [recordOfItem trainA]
      (fun _ => none) (fun _ => false)).1 trainA (by decide) (by decide) (Or.inl rfl),
   (c1_removal_only_after_successful_notify [recordOfItem trainA]
      (fun _ => some okRes) (fun _ => true)).2 (recordOfItem trainA)
      (by decide) (by decide)⟩

/- ===================== Claim C10 ===================== -/

theorem repairRecord_extraKeys (d : RawRecord) :
    (repairRecord d).extraKeys = d.extraKeys := by
  unfold repairRecord; split <;> rfl

theorem mkMonitoredTrain_extra_error (d : RawRecord) (hx : d.extraKeys ≠ []) :
    mkMonitoredTrain d = Except.error "unexpected keyword argument" := by
  unfold mkMonitoredTrain
  rw [if_pos hx]

theorem buildTrainList_error (l : List RawRecord) (d : RawRecord) (hd : d ∈ l)
    (he : exceptOk (mkMonitoredTrain d) = false) :
    exceptOk (buildTrainList l) = false := by
  induction l with
  | nil => cases hd
  | cons a rest ih =>
    rcases List.mem_cons.mp hd with rfl | hmem
    · unfold buildTrainList
      cases hm : mkMonitoredTrain d with
      | error e => rfl
      | ok x => rw [hm] at he; simp [exceptOk] at he
    · unfold buildTrainList
      cases hm : mkMonitoredTrain a with
      | error e => rfl
      | ok x =>
        have := ih hmem
        cases hb : buildTrainList rest with
        | error e => rfl
        | ok its => rw [hb] at this; simp [exceptOk] at this

/-- C10 (counterexample to the claim as stated): a persisted record
carrying one extra unknown field is dropped by the sweep loader (rather
than loaded with the field ignored), and makes the per-chat listing
raise (rather than tolerate it). -/
theorem c10_counterexample :
    listAllItems [extraRec] = [] ∧ exceptOk (listForChat [extraRec] 7) = false := by
  constructor <;> decide

/-- C10 (amended): consumers do not tolerate unknown extra fields.  The
dataclass constructor call raises on an unexpected keyword, so the sweep
loader silently drops any record with extra fields (loading itself
returns, without that record), while the per-chat listing propagates the
error for a matching record. -/
theorem c10_extra_fields_reject_record :
    (∀ d : RawRecord, d.extraKeys ≠ [] → loadOne d = none) ∧
    (∀ (data : List RawRecord) (c : Int),
      (∃ d ∈ data, d.chat_id = some c ∧ d.extraKeys ≠ []) →
      exceptOk (listForChat data c) = false) := by
  constructor
  · intro d hx
    unfold loadOne
    rw [mkMonitoredTrain_extra_error _ (by rw [repairRecord_extraKeys]; exact hx)]
    rfl
  · intro data c ⟨d, hd, hc, hx⟩
    unfold listForChat
    apply buildTrainList_error _ d
    · exact List.mem_filter.mpr ⟨hd, by simp [hc]⟩
    · rw [mkMonitoredTrain_extra_error _ hx]; rfl

/-- Witness for C10 (amended) at the concrete extra-field record. -/
theorem c10_witness :
    loadOne extraRec = none ∧ exceptOk (listForChat [extraRec] extraRec.chat_id.get!) = false :=
  ⟨c10_extra_fields_reject_record.1 extraRec (by decide),
   c10_extra_fields_reject_record.2 [extraRec] extraRec.chat_id.get!
     ⟨extraRec, List.mem_singleton.mpr rfl, by decide, by decide⟩⟩

/- ===================== Claim C5 ===================== -/

/-- C5 (counterexample to the claim as stated): the repair does not apply
wherever persisted records are loaded into watches.  `Store.list_for_chat`
constructs the dataclass directly, so a legacy record lacking `salida`
makes the per-chat listing raise instead of being loaded with the
repaired departure time. -/
theorem c5_counterexample :
    exceptOk (listForChat [legacyRec] 483) = false := by decide

/-- C5 (amended): the sweep loader (`_list_all_items`) repairs a record
lacking a (or having an empty) `salida`: the loaded watch's departure
time is the first HH:MM pattern found in the record's id (word-bounded
two digits, colon, two digits), or "00:00" when the id has none; in
particular an id containing "-06:34-" yields "06:34", and such a legacy
record is loaded, not dropped.  `Store.list_for_chat` performs no such
repair (see the counterexample). -/
theorem c5_sweep_loader_repairs_salida :
    (∀ (d : RawRecord) (it : MonitoredTrain),
      (d.salida = none ∨ d.salida = some "") → loadOne d = some it →
      it.salida = pyOrStr (parseSalidaFromId (d.id.getD "")) "00:00") ∧
    (∀ (data : List RawRecord) (d : RawRecord) (it : MonitoredTrain),
      d ∈ data → loadOne d = some it → it ∈ listAllItems data) ∧
    parseSalidaFromId "483-06/10/2025-06:34-Vigo U-A coruna" = some "06:34" ∧
    listAllItems [legacyRec] =
      [{ id := "483-06/10/2025-06:34-Vigo U-A coruna", chat_id := 483, origen := "Vigo U",
         destino := "A coruna", fecha := "06/10/2025", salida := "06:34",
         tolerancia_min := 5, added_at := defaultAddedAt }] := by
  refine ⟨?_, ?_, by decide, by decide⟩
  · intro d it hsal h
    have hrep : repairRecord d =
        { d with salida := some (pyOrStr (parseSalidaFromId (d.id.getD "")) "00:00") } := by
      unfold repairRecord
      rw [if_pos hsal]
    unfold loadOne at h
    rw [hrep] at h
    unfold mkMonitoredTrain at h
    split at h
    · simp [Except.toOption] at h
    · split at h
      · simp only [Except.toOption, Option.some.injEq] at h
        subst h
        rename_i heq
        injection heq with heq2
        exact heq2.symm
      · simp [Except.toOption] at h
  · intro data d it hd h
    exact List.mem_filterMap.mpr ⟨d, hd, h⟩

/-- Witness for C5 (amended) at the concrete legacy record. -/
theorem c5_witness :
    ({ id := "483-06/10/2025-06:34-Vigo U-A coruna", chat_id := 483, origen := "Vigo U",
       destino := "A coruna", fecha := "06/10/2025", salida := "06:34",
       tolerancia_min := 5, added_at := defaultAddedAt } : MonitoredTrain).salida =
      pyOrStr (parseSalidaFromId (legacyRec.id.getD "")) "00:00" ∧
    ({ id := "483-06/10/2025-06:34-Vigo U-A coruna", chat_id := 483, origen := "Vigo U",
       destino := "A coruna", fecha := "06/10/2025", salida := "06:34",
       tolerancia_min := 5, added_at := defaultAddedAt } : MonitoredTrain) ∈
      listAllItems [legacyRec] :=
  ⟨c5_sweep_loader_repairs_salida.1 legacyRec _ (Or.inl (by decide)) (by decide),
   c5_sweep_loader_repairs_salida.2.1 [legacyRec] legacyRec _
     (List.mem_singleton.mpr rfl) (by decide)⟩

/- ===================== Claim C6 ===================== -/

/-- C6 (counterexample to the claim as stated): an internal failure of
the availability check is not distinguishable from a genuine NOT_FOUND.
A failed search (`busc["ok"]` false) returns the same
`ok = False, estado = "NO_ENCONTRADO"` value fields as a completed
search with no matching trip, and a caught internal extraction failure
(which yields the empty trip list) returns a result identical to that of
a genuine no-matching-trip page. -/
theorem c6_counterexample :
    (estaLlenoEnHora false none [] "08:00" 2).estado = "NO_ENCONTRADO" ∧
    (estaLlenoEnHora false none [] "08:00" 2).ok = false ∧
    (estaLlenoEnHora true (some "https://renfe.example") [viajeLate] "08:00" 2).estado =
      "NO_ENCONTRADO" ∧
    (estaLlenoEnHora true (some "https://renfe.example") [viajeLate] "08:00" 2).ok = false ∧
    estaLlenoEnHora true (some "https://renfe.example") [] "08:00" 2 =
      estaLlenoEnHora true (some "https://renfe.example") [viajeLate] "08:00" 2 := by
  refine ⟨by decide, by decide, by decide, by decide, by decide⟩

/-- C6 (amended): `esta_lleno_en_hora` never raises towards its caller;
every failure path is caught and reported through the very same
NOT_FOUND result value (`ok = False`, `estado = "NO_ENCONTRADO"`) that a
completed search without a matching trip produces, so the caller cannot
distinguish a search/internal failure from a genuine NOT_FOUND (at most
the `url` field differs). -/
theorem c6_failure_reported_as_not_found :
    ∀ (url : Option String) (viajes : List Viaje) (hora : String) (tol : Int),
      estaLlenoEnHora false url viajes hora tol = notFoundRes url ∧
      (selectViaje viajes hora tol = none →
        estaLlenoEnHora true url viajes hora tol = notFoundRes url) ∧
      (notFoundRes url).estado = "NO_ENCONTRADO" ∧ (notFoundRes url).ok = false := by
  intro url viajes hora tol
  refine ⟨rfl, ?_, rfl, rfl⟩
  intro hsel
  unfold estaLlenoEnHora
  rw [hsel]
  rfl

/-- Witness for C6 (amended): the failed-search result and the
no-matching-trip result coincide at concrete inputs. -/
theorem c6_witness :
    estaLlenoEnHora false (some "u") [] "08:00" 2 = notFoundRes (some "u") ∧
    estaLlenoEnHora true (some "u") [viajeLate] "08:00" 2 = notFoundRes (some "u") :=
  ⟨(c6_failure_reported_as_not_found (some "u") [] "08:00" 2).1,
   (c6_failure_reported_as_not_found (some "u") [viajeLate] "08:00" 2).2.1 (by decide)⟩

/- ===================== Claim C7 ===================== -/

theorem getElem?_of_get? {α : Type} (l : List α) (n : Int) (o : Option α)
    (h : l.get? (n - 1).toNat = o) : l[n.toNat - 1]? = o := by
  rw [← Int.pred_toNat, ← List.get?_eq_getElem?]
  exact h

theorem registerFlow_cases (chat : Int) (origen destino dateInput : String)
    (search : Option (List RawViaje)) (choice : String) (store : List RawRecord) :
    ((registerFlow chat origen destino dateInput search choice store).2 = store ∧
      ∀ item, ¬ (registerFlow chat origen destino dateInput search choice store).1 =
        RegResult.saved item) ∨
    (∃ fecha viajes n elegido s,
      normalizeDate dateInput = some fecha ∧ search = some viajes ∧
      pyInt choice = some n ∧ (0 : Int) ≤ n - 1 ∧
      viajes.get? (n - 1).toNat = some elegido ∧
      elegido.salida = some s ∧ ¬ estadoOf elegido = "OK" ∧
      registerFlow chat origen destino dateInput search choice store =
        (RegResult.saved (mkItem chat fecha s origen destino),
          addData store (mkItem chat fecha s origen destino))) := by
  rcases hnd : normalizeDate dateInput with _ | fecha
  · exact Or.inl ⟨by simp [registerFlow, hnd], fun item => by simp [registerFlow, hnd]⟩
  rcases hse : search with _ | viajes
  · exact Or.inl ⟨by simp [registerFlow, hnd, hse],
      fun item => by simp [registerFlow, hnd, hse]⟩
  by_cases hemp : viajes.isEmpty = true
  · exact Or.inl ⟨by simp [registerFlow, hnd, hse, hemp],
      fun item => by simp [registerFlow, hnd, hse, hemp]⟩
  rcases hpi : pyInt choice with _ | n
  · exact Or.inl ⟨by simp [registerFlow, hnd, hse, hemp, hpi],
      fun item => by simp [registerFlow, hnd, hse, hemp, hpi]⟩
  by_cases hpos : (0 : Int) ≤ n - 1
  case neg =>
    exact Or.inl ⟨by simp [registerFlow, hnd, hse, hemp, hpi, hpos],
      fun item => by simp [registerFlow, hnd, hse, hemp, hpi, hpos]⟩
  rcases hget : viajes.get? (n - 1).toNat with _ | elegido
  · have hg := getElem?_of_get? viajes n _ hget
    exact Or.inl ⟨by simp [registerFlow, hnd, hse, hemp, hpi, hpos, hg],
      fun item => by simp [registerFlow, hnd, hse, hemp, hpi, hpos, hg]⟩
  have hg := getElem?_of_get? viajes n _ hget
  by_cases hok : estadoOf elegido = "OK"
  · rcases hs : elegido.salida with _ | s
    · exact Or.inl ⟨by simp [registerFlow, hnd, hse, hemp, hpi, hpos, hg, hok, hs],
        fun item => by simp [registerFlow, hnd, hse, hemp, hpi, hpos, hg, hok, hs]⟩
    rcases hl : elegido.llegada with _ | l
    · exact Or.inl ⟨by simp [registerFlow, hnd, hse, hemp, hpi, hpos, hg, hok, hs, hl],
        fun item => by simp [registerFlow, hnd, hse, hemp, hpi, hpos, hg, hok, hs, hl]⟩
    · exact Or.inl ⟨by simp [registerFlow, hnd, hse, hemp, hpi, hpos, hg, hok, hs, hl],
        fun item => by simp [registerFlow, hnd, hse, hemp, hpi, hpos, hg, hok, hs, hl]⟩
  · rcases hs : elegido.salida with _ | s
    · exact Or.inl ⟨by simp [registerFlow, hnd, hse, hemp, hpi, hpos, hg, hok, hs],
        fun item => by simp [registerFlow, hnd, hse, hemp, hpi, hpos, hg, hok, hs]⟩
    · refine Or.inr ⟨fecha, viajes, n, elegido, s, rfl, rfl, rfl, hpos, hget, hs, hok, ?_⟩
      simp [registerFlow, hnd, hse, hemp, hpi, hpos, hg, hok, hs]

/-- C7: registration creates (and persists) a watch exactly when the
supplied date parses as a valid dd/mm/yyyy calendar date, a candidate is
successfully chosen, the candidate has a departure time, and its state
does not normalize to "OK"; in every other case the store is unchanged;
and an "OK" (available) candidate is refused with the distinct
already-available reply instead of being stored. -/
theorem c7_registration_iff_full_candidate :
    ∀ (chat : Int) (origen destino dateInput : String) (search : Option (List RawViaje))
      (choice : String) (store : List RawRecord),
      (∀ item, (registerFlow chat origen destino dateInput search choice store).1 =
          RegResult.saved item ↔
        ∃ fecha viajes n elegido s,
          normalizeDate dateInput = some fecha ∧ search = some viajes ∧
          pyInt choice = some n ∧ (0 : Int) ≤ n - 1 ∧
          viajes.get? (n - 1).toNat = some elegido ∧
          elegido.salida = some s ∧ ¬ estadoOf elegido = "OK" ∧
          item = mkItem chat fecha s origen destino) ∧
      (∀ item, (registerFlow chat origen destino dateInput search choice store).1 =
          RegResult.saved item →
        (registerFlow chat origen destino dateInput search choice store).2 =
          addData store item) ∧
      ((∀ item, ¬ (registerFlow chat origen destino dateInput search choice store).1 =
          RegResult.saved item) →
        (registerFlow chat origen destino dateInput search choice store).2 = store) ∧
      (∀ fecha viajes n elegido s l,
        normalizeDate dateInput = some fecha → search = some viajes →
        pyInt choice = some n → (0 : Int) ≤ n - 1 →
        viajes.get? (n - 1).toNat = some elegido →
        estadoOf elegido = "OK" → elegido.salida = some s → elegido.llegada = some l →
        registerFlow chat origen destino dateInput search choice store =
          (RegResult.alreadyAvailable s l, store)) := by
  intro chat origen destino dateInput search choice store
  refine ⟨?_, ?_, ?_, ?_⟩
  · intro item
    constructor
    · intro h
      rcases registerFlow_cases chat origen destino dateInput search choice store with
        ⟨_, hno⟩ | ⟨fecha, viajes, n, elegido, s, h1, h2, h3, h4, h5, h6, h7, heq⟩
      · exact absurd h (hno item)
      · rw [heq] at h
        simp only at h
        injection h with h
        exact ⟨fecha, viajes, n, elegido, s, h1, h2, h3, h4, h5, h6, h7, h.symm⟩
    · rintro ⟨fecha, viajes, n, elegido, s, h1, h2, h3, h4, h5, h6, h7, rfl⟩
      have hemp : ¬ viajes.isEmpty = true := by
        cases viajes with
        | nil => simp at h5
        | cons a l => simp
      simp [registerFlow, h1, h2, h3, h4, getElem?_of_get? viajes n _ h5, h6, h7, hemp]
  · intro item h
    rcases registerFlow_cases chat origen destino dateInput search choice store with
      ⟨_, hno⟩ | ⟨fecha, viajes, n, elegido, s, h1, h2, h3, h4, h5, h6, h7, heq⟩
    · exact absurd h (hno item)
    · rw [heq] at h ⊢
      simp only at h ⊢
      injection h with h
      rw [h]
  · intro hno
    rcases registerFlow_cases chat origen destino dateInput search choice store with
      ⟨h2, _⟩ | ⟨fecha, viajes, n, elegido, s, h1, h2, h3, h4, h5, h6, h7, heq⟩
    · exact h2
    · exact absurd (by rw [heq]) (hno (mkItem chat fecha s origen destino))
  · intro fecha viajes n elegido s l h1 h2 h3 h4 h5 h6 h7 h8
    have hemp : ¬ viajes.isEmpty = true := by
      cases viajes with
      | nil => simp at h5
      | cons a l => simp
    simp [registerFlow, h1, h2, h3, h4, getElem?_of_get? viajes n _ h5, h6, h7, h8, hemp]

/-- Witness for C7: a full (LLENO) candidate with valid date and index is
saved and persisted; an available (OK) candidate is refused with the
distinct already-available reply and nothing is stored. -/
theorem c7_witness :
    (registerFlow 7 "Vigo U" "A coruna" "06/10/2025" (some [rawFull]) "1" []).1 =
      RegResult.saved (mkItem 7 "06/10/2025" "07:59" "Vigo U" "A coruna") ∧
    (registerFlow 7 "Vigo U" "A coruna" "06/10/2025" (some [rawFull]) "1" []).2 =
      addData [] (mkItem 7 "06/10/2025" "07:59" "Vigo U" "A coruna") ∧
    registerFlow 7 "Vigo U" "A coruna" "06/10/2025" (some [rawFree]) "1" [] =
      (RegResult.alreadyAvailable "08:10" "09:05", []) := by
  have h := c7_registration_iff_full_candidate 7 "Vigo U" "A coruna" "06/10/2025"
    (some [rawFull]) "1" []
  have h1 : (registerFlow 7 "Vigo U" "A coruna" "06/10/2025" (some [rawFull]) "1" []).1 =
      RegResult.saved (mkItem 7 "06/10/2025" "07:59" "Vigo U" "A coruna") :=
    (h.1 _).mpr ⟨"06/10/2025", [rawFull], 1, rawFull, "07:59", by decide, rfl, by decide,
      by decide, by decide, by decide, by decide, rfl⟩
  refine ⟨h1, h.2.1 _ h1, ?_⟩
  exact (c7_registration_iff_full_candidate 7 "Vigo U" "A coruna" "06/10/2025"
      (some [rawFree]) "1" []).2.2.2 "06/10/2025" [rawFree] 1 rawFree "08:10" "09:05"
    (by decide) rfl (by decide) (by decide) (by decide) (by decide) (by decide) (by decide)

/- ===================== Claim C3 ===================== -/

theorem isDigitChar_ne {c : Char} (h : isDigitChar c = true) :
    ¬ c = ':' ∧ ¬ c = '-' ∧ ¬ c = '+' := by
  refine ⟨?_, ?_, ?_⟩ <;> intro hc <;> subst hc <;> exact absurd h (by decide)

theorem digitVal_le_9 {c : Char} (h : isDigitChar c = true) : digitVal c ≤ 9 := by
  have h' : 48 ≤ c.toNat ∧ c.toNat ≤ 57 := by simpa [isDigitChar] using h
  unfold digitVal
  omega

theorem natDigits_pair {a b : Char} (ha : isDigitChar a = true) (hb : isDigitChar b = true) :
    natDigits [a, b] = some (digitVal a * 10 + digitVal b) := by
  unfold natDigits
  rw [if_pos ⟨by simp, by simp [ha, hb]⟩]
  norm_num [List.foldl]

theorem pyIntChars_pair {a b : Char} (ha : isDigitChar a = true) (hb : isDigitChar b = true) :
    pyIntChars [a, b] = some ((digitVal a * 10 + digitVal b : Nat) : Int) := by
  simp [pyIntChars, (isDigitChar_ne ha).2.1, (isDigitChar_ne ha).2.2, natDigits_pair ha hb]

theorem parseHHMM_shape {s : String} (h : isHHMMShape s = true) :
    ∃ hm : Int × Int, parseHHMM s = some hm ∧
      0 ≤ hm.1 ∧ hm.1 ≤ 99 ∧ 0 ≤ hm.2 ∧ hm.2 ≤ 99 := by
  unfold isHHMMShape at h
  split at h
  case h_2 => cases h
  case h_1 a b c d e heq =>
    simp only [Bool.and_eq_true, decide_eq_true_eq] at h
    obtain ⟨⟨⟨⟨ha, hb⟩, hc⟩, hd⟩, he⟩ := h
    subst hc
    have hsplit : splitOnChar ':' [a, b, ':', d, e] = [[a, b], [d, e]] := by
      simp [splitOnChar, (isDigitChar_ne ha).1, (isDigitChar_ne hb).1,
        (isDigitChar_ne hd).1, (isDigitChar_ne he).1]
    refine ⟨(((digitVal a * 10 + digitVal b : Nat) : Int),
      ((digitVal d * 10 + digitVal e : Nat) : Int)), ?_, ?_, ?_, ?_, ?_⟩
    · unfold parseHHMM
      rw [heq, hsplit]
      simp [pyIntChars_pair ha hb, pyIntChars_pair hd he]
    · positivity
    · have := digitVal_le_9 ha
      have := digitVal_le_9 hb
      omega
    · positivity
    · have := digitVal_le_9 hd
      have := digitVal_le_9 he
      omega

theorem minDiffFn_le_6039 {a b : String} (ha : isHHMMShape a = true)
    (hb : isHHMMShape b = true) : minDiffFn a b ≤ 6039 := by
  obtain ⟨⟨h1, m1⟩, hpa, hb1, hb2, hb3, hb4⟩ := parseHHMM_shape ha
  obtain ⟨⟨h2, m2⟩, hpb, hc1, hc2, hc3, hc4⟩ := parseHHMM_shape hb
  unfold minDiffFn
  rw [hpa, hpb]
  simp only at hb1 hb2 hb3 hb4 hc1 hc2 hc3 hc4 ⊢
  omega

theorem bestLoop_spec (hora : String) (tol : Int) :
    ∀ (l : List Viaje) (m0 : Option Viaje) (d0 : Nat),
      (bestLoop hora tol l (m0, d0)).2 ≤ d0 ∧
      (∀ v ∈ l, (minDiffFn v.salida hora : Int) ≤ tol →
        (bestLoop hora tol l (m0, d0)).2 ≤ minDiffFn v.salida hora) ∧
      ((bestLoop hora tol l (m0, d0)).1 = m0 ∧ (bestLoop hora tol l (m0, d0)).2 = d0 ∨
        ∃ v ∈ l, (bestLoop hora tol l (m0, d0)).1 = some v ∧
          (bestLoop hora tol l (m0, d0)).2 = minDiffFn v.salida hora ∧
          (minDiffFn v.salida hora : Int) ≤ tol) := by
  intro l
  induction l with
  | nil =>
    intro m0 d0
    exact ⟨Nat.le_refl _, by simp [bestLoop], Or.inl ⟨rfl, rfl⟩⟩
  | cons v rest ih =>
    intro m0 d0
    by_cases hc : (minDiffFn v.salida hora : Int) ≤ tol ∧ minDiffFn v.salida hora < d0
    · have hstep : bestLoop hora tol (v :: rest) (m0, d0) =
          bestLoop hora tol rest (some v, minDiffFn v.salida hora) := by
        simp [bestLoop, hc]
      obtain ⟨ha1, ha2, ha3⟩ := ih (some v) (minDiffFn v.salida hora)
      rw [hstep]
      refine ⟨le_trans ha1 (le_of_lt hc.2), ?_, ?_⟩
      · intro w hw hwt
        rcases List.mem_cons.mp hw with rfl | hw'
        · exact ha1
        · exact ha2 w hw' hwt
      · rcases ha3 with ⟨he1, he2⟩ | ⟨w, hw, he1, he2, he3⟩
        · exact Or.inr ⟨v, List.mem_cons_self v rest, he1, he2, hc.1⟩
        · exact Or.inr ⟨w, List.mem_cons_of_mem _ hw, he1, he2, he3⟩
    · have hstep : bestLoop hora tol (v :: rest) (m0, d0) =
          bestLoop hora tol rest (m0, d0) := by
        simp [bestLoop, hc]
      obtain ⟨ha1, ha2, ha3⟩ := ih m0 d0
      rw [hstep]
      refine ⟨ha1, ?_, ?_⟩
      · intro w hw hwt
        rcases List.mem_cons.mp hw with rfl | hw'
        · have hd0 : d0 ≤ minDiffFn w.salida hora := by
            by_contra hlt
            exact hc ⟨hwt, by omega⟩
          exact le_trans ha1 hd0
        · exact ha2 w hw' hwt
      · rcases ha3 with h | ⟨w, hw, hrest⟩
        · exact Or.inl h
        · exact Or.inr ⟨w, List.mem_cons_of_mem _ hw, hrest⟩

theorem selectViaje_spec (viajes : List Viaje) (hora : String) (tol : Int) :
    (∀ m, selectViaje viajes hora tol = some m →
      (m ∈ viajes ∧ (minDiffFn m.salida hora : Int) ≤ tol ∧
        ∀ v ∈ viajes, (minDiffFn v.salida hora : Int) ≤ tol →
          minDiffFn m.salida hora ≤ minDiffFn v.salida hora) ∨
      (m ∈ viajes ∧ m.salida = hora ∧
        ∀ v ∈ viajes, ¬ ((minDiffFn v.salida hora : Int) ≤ tol ∧
          minDiffFn v.salida hora < 1000000000))) ∧
    (selectViaje viajes hora tol = none →
      (∀ v ∈ viajes, ¬ ((minDiffFn v.salida hora : Int) ≤ tol ∧
        minDiffFn v.salida hora < 1000000000)) ∧
      ∀ v ∈ viajes, ¬ v.salida = hora) := by
  obtain ⟨hb1, hb2, hb3⟩ := bestLoop_spec hora tol viajes none 1000000000
  rcases hbl : bestLoop hora tol viajes (none, 1000000000) with ⟨mm, dd⟩
  rw [hbl] at hb1 hb2 hb3
  simp only at hb1 hb2 hb3
  cases mm with
  | some m' =>
    constructor
    · intro m hm
      unfold selectViaje at hm
      rw [hbl] at hm
      simp only [Option.some.injEq] at hm
      subst hm
      rcases hb3 with ⟨he1, _⟩ | ⟨w, hw, he1, he2, he3⟩
      · cases he1
      · left
        cases he1
        exact ⟨hw, he3, fun v hv hvt => he2 ▸ hb2 v hv hvt⟩
    · intro hm
      unfold selectViaje at hm
      rw [hbl] at hm
      cases hm
  | none =>
    have hdd : dd = 1000000000 := by
      rcases hb3 with ⟨_, he2⟩ | ⟨w, hw, he1, _, _⟩
      · exact he2
      · cases he1
    have hnot : ∀ v ∈ viajes, ¬ ((minDiffFn v.salida hora : Int) ≤ tol ∧
        minDiffFn v.salida hora < 1000000000) := by
      intro v hv ⟨hvt, hvlt⟩
      have := hb2 v hv hvt
      omega
    constructor
    · intro m hm
      unfold selectViaje at hm
      rw [hbl] at hm
      right
      exact ⟨List.mem_of_find?_eq_some hm,
        by have := List.find?_some hm; simpa using this, hnot⟩
    · intro hm
      unfold selectViaje at hm
      rw [hbl] at hm
      refine ⟨hnot, ?_⟩
      intro v hv
      have := List.find?_eq_none.mp hm v hv
      simpa using this

/-- C3: over extracted trips (whose departure strings have the HH:MM
shape) and an HH:MM target time with a non-negative tolerance, the
availability check selects the trip whose departure has the smallest
absolute minute difference from the target among trips within tolerance;
if none is within tolerance it falls back to the first trip whose
departure string equals the target exactly; if neither exists the result
is the NO_ENCONTRADO value.  In particular, for target 08:00 with
tolerance 2 and trips at 07:59 (full) and 08:10 (available), it selects
07:59 with state LLENO. -/
theorem c3_selects_closest_within_tolerance :
    (∀ (viajes : List Viaje) (hora : String) (tol : Int) (url : Option String),
      (0 : Int) ≤ tol →
      (∀ v ∈ viajes, isHHMMShape v.salida = true) →
      isHHMMShape hora = true →
      (∀ m, selectViaje viajes hora tol = some m →
        m ∈ viajes ∧
        (((minDiffFn m.salida hora : Int) ≤ tol ∧
            ∀ v ∈ viajes, (minDiffFn v.salida hora : Int) ≤ tol →
              minDiffFn m.salida hora ≤ minDiffFn v.salida hora) ∨
          ((∀ v ∈ viajes, ¬ (minDiffFn v.salida hora : Int) ≤ tol) ∧ m.salida = hora)) ∧
        estaLlenoEnHora true url viajes hora tol =
          { ok := true, estado := m.estado, salida := some m.salida,
            llegada := some m.llegada, url := url }) ∧
      (selectViaje viajes hora tol = none →
        (∀ v ∈ viajes, ¬ (minDiffFn v.salida hora : Int) ≤ tol ∧ ¬ v.salida = hora) ∧
        estaLlenoEnHora true url viajes hora tol = notFoundRes url)) ∧
    estaLlenoEnHora true (some "url") [viajeFull, viajeFree] "08:00" 2 =
      { ok := true, estado := "LLENO", salida := some "07:59", llegada := some "08:55",
        url := some "url" } := by
  constructor
  · intro viajes hora tol url htol hshv hsh
    have hsmall : ∀ v ∈ viajes, minDiffFn v.salida hora < 1000000000 := by
      intro v hv
      have := minDiffFn_le_6039 (hshv v hv) hsh
      omega
    obtain ⟨hs1, hs2⟩ := selectViaje_spec viajes hora tol
    constructor
    · intro m hm
      have heval : estaLlenoEnHora true url viajes hora tol =
          { ok := true, estado := m.estado, salida := some m.salida,
            llegada := some m.llegada, url := url } := by
        simp [estaLlenoEnHora, hm]
      rcases hs1 m hm with ⟨hmem, hmt, hmin⟩ | ⟨hmem, hexact, hnone⟩
      · exact ⟨hmem, Or.inl ⟨hmt, hmin⟩, heval⟩
      · refine ⟨hmem, Or.inr ⟨?_, hexact⟩, heval⟩
        intro v hv hvt
        exact hnone v hv ⟨hvt, hsmall v hv⟩
    · intro hm
      obtain ⟨hn1, hn2⟩ := hs2 hm
      refine ⟨?_, by simp [estaLlenoEnHora, hm]⟩
      intro v hv
      exact ⟨fun hvt => hn1 v hv ⟨hvt, hsmall v hv⟩, hn2 v hv⟩
  · decide

/-- Witness for C3 at the specification scenario: target 08:00,
tolerance 2, trips 07:59 (LLENO) and 08:10 (OK). -/
theorem c3_witness :
    viajeFull ∈ [viajeFull, viajeFree] ∧
    estaLlenoEnHora true (some "u") [viajeFull, viajeFree] "08:00" 2 =
      { ok := true, estado := "LLENO", salida := some "07:59", llegada := some "08:55",
        url := some "u" } :=
  have h := (c3_selects_closest_within_tolerance.1 [viajeFull, viajeFree] "08:00" 2
    (some "u") (by decide) (by decide) (by decide)).1 viajeFull (by decide)
  ⟨h.1, h.2.2⟩
